import Mathlib

/-!
Verification of the error-deduplication cache subsystem
(`src/cache/ErrorCache.ts`, `src/cache/DeduplicationService.ts`).

Modelling conventions:
* JS `Map` objects are insertion-ordered association lists with unique keys;
  `Map.set` on a fresh key appends, in-place mutation of a stored entry is
  modelled as updating the value at its key.
* JS numbers holding milliseconds-since-epoch timestamps are modelled as `Int`;
  occurrence counters are `Nat`; the similarity arithmetic (decimal weights,
  divisions) is modelled exactly over `ℚ`.
* `JSON.stringify` is modelled for a small JSON-like value type; object keys
  are serialized in insertion order (as JS does for non-index string keys);
  strings are assumed free of characters that JSON would escape.
* Every `Date.now()` / `new Date()` read during one `addError` call is modelled
  as a single instant `now`; the separate `Date.now()` read inside
  `shouldLogDuplicate` gets its own parameter `nowCheck`, because the claims
  distinguish exactly that read.
* Observer callbacks (`onDuplicate`, `onNewError`) are modelled as emitted
  events.
-/

/-- JSON-like values stored in an error's `context` record. -/
inductive JVal where
  | jstr (s : String)
  | jnum (n : Int)
  | jbool (b : Bool)
  | jnull
deriving DecidableEq

/-- JSON.stringify of a single context value. -/
def stringifyVal : JVal → String
  | .jstr s => "\"" ++ s ++ "\""
  | .jnum n => toString n
  | .jbool b => if b then "true" else "false"
  | .jnull => "null"

/-- A context object: insertion-ordered key/value pairs (JS object with
non-index string keys preserves insertion order). -/
abbrev Ctx := List (String × JVal)

/-- JSON.stringify of a context object, keys serialized in insertion order. -/
def stringifyCtx (c : Ctx) : String :=
  "\x7b" ++ String.intercalate ","
      (c.map (fun kv => "\"" ++ kv.1 ++ "\":" ++ stringifyVal kv.2))
    ++ "\x7d"

/-- Lookup of a key in a context object (`context[key]`). -/
def ctxLookup (c : Ctx) (key : String) : Option JVal :=
  match c with
  | [] => none
  | kv :: rest => if kv.1 = key then some kv.2 else ctxLookup rest key

/-- Structural view of `AppError` (`src/core`): the fields the cache reads. -/
structure AppError where
  code : String
  message : String
  statusCode : Int
  context : Option Ctx
deriving DecidableEq

/-- Severity levels of `AppError.getSeverity`. -/
inductive Severity where
  | low
  | medium
  | high
  | critical
deriving DecidableEq

/-- Derived severity (`AppError.getSeverity`). -/
def AppError.getSeverity (e : AppError) : Severity :=
  if e.statusCode ≥ 500 then .critical
  else if e.statusCode ≥ 400 then .high
  else if e.statusCode ≥ 300 then .medium
  else .low

/-- One cached entry (`CachedError` in `ErrorCache.ts`): `timestamp` is the
spec's `firstSeen`, `lastOccurrence` the spec's `lastSeen`. -/
structure CachedError where
  error : AppError
  timestamp : Int
  count : Nat
  lastOccurrence : Int
  key : String
deriving DecidableEq

/-- Cache configuration (`ErrorCacheOptions`), with the key generator fixed to
the default one, as in every in-repo construction of `ErrorCache`. -/
structure ErrorCacheOptions where
  ttl : Int
  maxSize : Nat
  similarityThreshold : ℚ
deriving DecidableEq

/-- Defaults of the `ErrorCache` constructor. -/
def defaultOptions : ErrorCacheOptions :=
  { ttl := 300000, maxSize := 1000, similarityThreshold := 0.8 }

/-- State of the `ErrorCache`: the JS `Map` as an insertion-ordered list. -/
abbrev CacheMap := List (String × CachedError)

/-- Map lookup (`this.cache.get(key)`). -/
def mapGet (cache : CacheMap) (key : String) : Option CachedError :=
  match cache with
  | [] => none
  | kv :: rest => if kv.1 = key then some kv.2 else mapGet rest key

/-- In-place update of the entry stored at `key` (mutation of the object the
map references). -/
def mapUpdate (cache : CacheMap) (key : String) (v : CachedError) : CacheMap :=
  cache.map (fun kv => if kv.1 = key then (kv.1, v) else kv)

/-- Default key generator (`defaultKeyGenerator`):
`code ++ ":" ++ message ++ ":" ++ (context ? JSON.stringify(context) : "")`. -/
def defaultKeyGenerator (error : AppError) : String :=
  let context := match error.context with
    | some c => stringifyCtx c
    | none => ""
  error.code ++ ":" ++ error.message ++ ":" ++ context

/-- Levenshtein distance (`levenshteinDistance`): the defining recurrence of
the source's DP matrix, with unit-cost insert/delete and an equality
indicator on the substitution diagonal. -/
def levenshteinDistance : List Char → List Char → Nat
  | [], str2 => str2.length
  | str1, [] => str1.length
  | a :: str1, b :: str2 =>
      let indicator : Nat := if a = b then 0 else 1
      min (min (levenshteinDistance str1 (b :: str2) + 1)
               (levenshteinDistance (a :: str1) str2 + 1))
          (levenshteinDistance str1 str2 + indicator)
termination_by s t => s.length + t.length

/-- Normalized string similarity (`calculateStringSimilarity`). -/
def calculateStringSimilarity (str1 str2 : List Char) : ℚ :=
  let maxLength := max str1.length str2.length
  if maxLength = 0 then 1
  else 1 - (levenshteinDistance str1 str2 : ℚ) / (maxLength : ℚ)

/-- Context similarity (`calculateContextSimilarity`): 1 if both contexts are
absent, 0 if exactly one is absent, else the fraction of shared keys whose
values stringify identically (0 when there is no shared key). -/
def calculateContextSimilarity : Option Ctx → Option Ctx → ℚ
  | none, none => 1
  | some _, none => 0
  | none, some _ => 0
  | some context1, some context2 =>
      let keys1 := context1.map Prod.fst
      let keys2 := context2.map Prod.fst
      let commonKeys := keys1.filter (fun key => keys2.contains key)
      if commonKeys.length = 0 then 0
      else
        let similarValues := (commonKeys.filter (fun key =>
          decide ((ctxLookup context1 key).map stringifyVal
            = (ctxLookup context2 key).map stringifyVal))).length
        (similarValues : ℚ) / (commonKeys.length : ℚ)

/-- Weighted similarity score (`calculateSimilarity`): the running
`score`/`factors` accumulation of the source, then `score / factors`. -/
def calculateSimilarity (error1 error2 : AppError) : ℚ :=
  let score1 : ℚ := if error1.code = error2.code then 0.4 else 0
  let factors1 : ℚ := 0.4
  let messageSimilarity := calculateStringSimilarity error1.message.data error2.message.data
  let score2 := score1 + messageSimilarity * 0.3
  let factors2 := factors1 + 0.3
  let score3 := score2 + (if error1.statusCode = error2.statusCode then 0.2 else 0)
  let factors3 := factors2 + 0.2
  let contextSimilarity := calculateContextSimilarity error1.context error2.context
  let score4 := score3 + contextSimilarity * 0.1
  let factors4 := factors3 + 0.1
  if factors4 > 0 then score4 / factors4 else 0

/-- Scan for a similar cached error (`findSimilarError`): first entry, in map
iteration order, whose similarity reaches the threshold. -/
def findSimilarError (opts : ErrorCacheOptions) (cache : CacheMap) (error : AppError) :
    Option CachedError :=
  match cache with
  | [] => none
  | kv :: rest =>
      if calculateSimilarity error kv.2.error ≥ opts.similarityThreshold then some kv.2
      else findSimilarError opts rest error

/-- TTL sweep (`clearExpired`): deletes every entry with
`now - timestamp > ttl` and returns the new map with the number removed. -/
def clearExpired (opts : ErrorCacheOptions) (cache : CacheMap) (now : Int) : CacheMap × Nat :=
  (cache.filter (fun kv => decide (¬ now - kv.2.timestamp > opts.ttl)),
   cache.countP (fun kv => decide (now - kv.2.timestamp > opts.ttl)))

/-- Insertion step of the timestamp sort used by `cleanup`. -/
def insertByTimestamp (x : String × CachedError) : CacheMap → CacheMap
  | [] => [x]
  | y :: ys =>
      if x.2.timestamp < y.2.timestamp then x :: y :: ys
      else y :: insertByTimestamp x ys

/-- Sort of the entry list by ascending `timestamp`
(`sort((a, b) => a.timestamp - b.timestamp)`). -/
def sortByTimestamp : CacheMap → CacheMap
  | [] => []
  | x :: xs => insertByTimestamp x (sortByTimestamp xs)

/-- Size/TTL cleanup (`cleanup`): runs the TTL sweep, then, when over
capacity, deletes the oldest-by-`timestamp` entries down to `maxSize`. -/
def cleanup (opts : ErrorCacheOptions) (cache : CacheMap) (now : Int) : CacheMap :=
  let cache1 := (clearExpired opts cache now).1
  if cache1.length > opts.maxSize then
    let sorted := sortByTimestamp cache1
    let toRemove := sorted.take (cache1.length - opts.maxSize)
    let removedKeys := toRemove.map Prod.fst
    cache1.filter (fun kv => decide (¬ kv.1 ∈ removedKeys))
  else cache1

/-- Result of `addError`: the returned flag/entry pair plus the successor
cache state. -/
structure AddErrorResult where
  isDuplicate : Bool
  cachedError : CachedError
  cache : CacheMap
deriving DecidableEq

/-- Insertion (`addError`): exact-key hit, else similarity fold, else a fresh
entry followed by `cleanup`. -/
def addError (opts : ErrorCacheOptions) (cache : CacheMap) (error : AppError) (now : Int) :
    AddErrorResult :=
  let key := defaultKeyGenerator error
  match mapGet cache key with
  | some existing =>
      let updated := { existing with count := existing.count + 1, lastOccurrence := now }
      { isDuplicate := true, cachedError := updated, cache := mapUpdate cache key updated }
  | none =>
      match findSimilarError opts cache error with
      | some similarError =>
          let updated :=
            { similarError with count := similarError.count + 1, lastOccurrence := now }
          { isDuplicate := true, cachedError := updated,
            cache := mapUpdate cache similarError.key updated }
      | none =>
          let cachedError : CachedError :=
            { error := error, timestamp := now, count := 1, lastOccurrence := now, key := key }
          { isDuplicate := false, cachedError := cachedError,
            cache := cleanup opts (cache ++ [(key, cachedError)]) now }

/-- Lookup by key (`getError`). -/
def getError (cache : CacheMap) (key : String) : Option CachedError :=
  mapGet cache key

/-- All cached entries (`getAllErrors`). -/
def getAllErrors (cache : CacheMap) : List CachedError :=
  cache.map Prod.snd

/-- Removal by key (`removeError` / `Map.delete`): the new map and whether the
key was present. -/
def removeError (cache : CacheMap) (key : String) : CacheMap × Bool :=
  (cache.filter (fun kv => decide (¬ kv.1 = key)), (mapGet cache key).isSome)

/-- Full reset (`clear`). -/
def clear (_cache : CacheMap) : CacheMap := ([] : CacheMap)

/-- Statistics snapshot record (`ErrorCacheStats`). -/
structure ErrorCacheStats where
  totalErrors : Nat
  uniqueErrors : Nat
  duplicateErrors : Int
  hitRate : ℚ
  oldestError : Option Int
  newestError : Option Int
deriving DecidableEq

/-- Math.round on an exact rational: round half toward positive infinity. -/
def jsRound (q : ℚ) : Int := ⌊q + 1/2⌋

/-- Statistics snapshot (`getStats`). -/
def getStats (cache : CacheMap) : ErrorCacheStats :=
  let errors := cache.map Prod.snd
  let totalErrors : Nat := errors.foldl (fun sum cached => sum + cached.count) 0
  let uniqueErrors := errors.length
  let duplicateErrors : Int := (totalErrors : Int) - (uniqueErrors : Int)
  let hitRate : ℚ := if totalErrors > 0 then (duplicateErrors : ℚ) / (totalErrors : ℚ) else 0
  let timestamps := errors.map (fun cached => cached.timestamp)
  { totalErrors := totalErrors
    uniqueErrors := uniqueErrors
    duplicateErrors := duplicateErrors
    hitRate := (jsRound (hitRate * 100) : ℚ) / 100
    oldestError := timestamps.min?
    newestError := timestamps.max? }

/-- Deduplication-service configuration (`DeduplicationOptions`), callbacks
modelled as events. -/
structure DeduplicationOptions where
  enabled : Bool
  ttl : Int
  maxSize : Nat
  similarityThreshold : ℚ
deriving DecidableEq

/-- Defaults of the `DeduplicationService` constructor. -/
def defaultDedupOptions : DeduplicationOptions :=
  { enabled := true, ttl := 300000, maxSize := 1000, similarityThreshold := 0.8 }

/-- Cache options the service constructs its inner `ErrorCache` with. -/
def DeduplicationOptions.toCacheOptions (o : DeduplicationOptions) : ErrorCacheOptions :=
  { ttl := o.ttl, maxSize := o.maxSize, similarityThreshold := o.similarityThreshold }

/-- Result record of `processError` (`DeduplicationResult`). -/
structure DeduplicationResult where
  isDuplicate : Bool
  cachedError : Option CachedError
  shouldLog : Bool
  shouldAlert : Bool
  deduplicationKey : String
deriving DecidableEq

/-- Observer callbacks fired by `processError`, modelled as events. -/
inductive DedupEvent where
  | onDuplicate (error : AppError) (cached : CachedError)
  | onNewError (error : AppError)
deriving DecidableEq

/-- Key derivation of the service (`generateKey`), textually identical to
`defaultKeyGenerator`. -/
def generateKey (error : AppError) : String :=
  let context := match error.context with
    | some c => stringifyCtx c
    | none => ""
  error.code ++ ":" ++ error.message ++ ":" ++ context

/-- Log-cadence policy (`shouldLogDuplicate`): reads the entry's
`lastOccurrence` at check time `now`. -/
def shouldLogDuplicate (cachedError : CachedError) (now : Int) : Bool :=
  let lastLogTime := cachedError.lastOccurrence
  let timeSinceLastLog := now - lastLogTime
  decide (cachedError.count % 10 = 0) || decide (timeSinceLastLog > 300000)

/-- Alert-cadence policy (`shouldAlertDuplicate`). -/
def shouldAlertDuplicate (cachedError : CachedError) : Bool :=
  decide (cachedError.count = 1) || decide (cachedError.count % 50 = 0)

/-- Service entry point (`processError`): returns the result record, the
successor cache state and the fired callbacks. `now` is the instant of the
`addError` call, `nowCheck` the `Date.now()` read inside
`shouldLogDuplicate`. -/
def processError (opts : DeduplicationOptions) (cache : CacheMap) (error : AppError)
    (now nowCheck : Int) : DeduplicationResult × CacheMap × List DedupEvent :=
  if opts.enabled = false then
    ({ isDuplicate := false, cachedError := none, shouldLog := true, shouldAlert := true,
       deduplicationKey := generateKey error }, cache, [])
  else
    let r := addError opts.toCacheOptions cache error now
    let key := generateKey error
    if r.isDuplicate then
      ({ isDuplicate := true, cachedError := some r.cachedError,
         shouldLog := shouldLogDuplicate r.cachedError nowCheck,
         shouldAlert := shouldAlertDuplicate r.cachedError,
         deduplicationKey := key }, r.cache, [DedupEvent.onDuplicate error r.cachedError])
    else
      ({ isDuplicate := false, cachedError := none, shouldLog := true, shouldAlert := true,
         deduplicationKey := key }, r.cache, [DedupEvent.onNewError error])

/-- Context-similarity contract as the spec words it (§4.2): the fraction of
shared keys whose values serialize identically (`ℚ` division, so an empty
shared-key set yields 0), 1 when both contexts are absent, 0 when exactly one
is absent. -/
def contextSimilaritySpec : Option Ctx → Option Ctx → ℚ
  | none, none => 1
  | some _, none => 0
  | none, some _ => 0
  | some c1, some c2 =>
      let commonKeys := (c1.map Prod.fst).filter (fun key => (c2.map Prod.fst).contains key)
      ((commonKeys.filter (fun key =>
          decide ((ctxLookup c1 key).map stringifyVal
            = (ctxLookup c2 key).map stringifyVal))).length : ℚ)
        / (commonKeys.length : ℚ)

/-- Similarity contract as the spec words it (§4.2): a plain weighted sum with
fixed weights 0.4 / 0.3 / 0.2 / 0.1, message similarity
`1 - editDistance / max(len, len)` with an empty/empty pair scoring 1. -/
def similaritySpec (a b : AppError) : ℚ :=
  (if a.code = b.code then 0.4 else 0)
  + 0.3 * (if max a.message.data.length b.message.data.length = 0 then 1
      else 1 - (levenshteinDistance a.message.data b.message.data : ℚ)
        / ((max a.message.data.length b.message.data.length : Nat) : ℚ))
  + (if a.statusCode = b.statusCode then 0.2 else 0)
  + 0.1 * contextSimilaritySpec a.context b.context

/-- Iterated insertion of one fixed signal, occurrence `i` happening at time
`times i`. -/
def iterInsert (opts : ErrorCacheOptions) (error : AppError) (times : Nat → Int) :
    Nat → CacheMap
  | 0 => []
  | n + 1 => (addError opts (iterInsert opts error times n) error (times n)).cache

/-- Entry created for a fresh (signal, time) pair on the miss path of
`addError`. -/
def mkNewEntry (p : AppError × Int) : CachedError :=
  { error := p.1, timestamp := p.2, count := 1, lastOccurrence := p.2,
    key := defaultKeyGenerator p.1 }

/-- Left-to-right insertion of a batch of (signal, time) pairs into a cache
started empty. -/
def insertList (opts : ErrorCacheOptions) (items : List (AppError × Int)) : CacheMap :=
  items.foldl (fun cache p => (addError opts cache p.1 p.2).cache) []

/-- Well-formedness of a cache state: keys are unique, each entry is stored
under its own `key` field, and counts are at least 1. Initial state `[]` has
it and `addError` preserves it. -/
structure CacheWF (cache : CacheMap) : Prop where
  nodupKeys : (cache.map Prod.fst).Nodup
  keyMatch : ∀ kv ∈ cache, kv.1 = kv.2.key
  countPos : ∀ kv ∈ cache, 1 ≤ kv.2.count

/-- Concrete sample context: keys inserted in order a, b. -/
def ctxAB : Ctx := [("a", JVal.jnum 1), ("b", JVal.jnum 2)]

/-- Concrete sample context: the same pairs inserted in order b, a. -/
def ctxBA : Ctx := [("b", JVal.jnum 2), ("a", JVal.jnum 1)]

/-- Sample signal carrying `ctxAB`. -/
def errCtxAB : AppError :=
  { code := "E", message := "m", statusCode := 500, context := some ctxAB }

/-- Sample signal carrying `ctxBA`, with a different statusCode. -/
def errCtxBA : AppError :=
  { code := "E", message := "m", statusCode := 404, context := some ctxBA }

/-- Sample database error of the spec's concrete scenarios. -/
def errQuery : AppError :=
  { code := "DATABASE_ERROR", message := "Query failed", statusCode := 500, context := none }

/-- Sample pairwise-dissimilar signals (distinct codes and statusCodes, empty
messages, no context: similarity 0.4 < 0.8). -/
def errA : AppError := { code := "A", message := "", statusCode := 500, context := none }

/-- Second sample signal, distinct from `errA`. -/
def errB : AppError := { code := "B", message := "", statusCode := 404, context := none }

/-- Third sample signal, distinct from `errA` and `errB`. -/
def errC : AppError := { code := "C", message := "", statusCode := 400, context := none }

/-- Sample cached entry with count 3. -/
def entryA3 : CachedError :=
  { error := errA, timestamp := 0, count := 3, lastOccurrence := 10, key := "A::" }

/-- Sample cached entry with count 1. -/
def entryB1 : CachedError :=
  { error := errB, timestamp := 1, count := 1, lastOccurrence := 1, key := "B::" }

/-- Another sample cached entry with count 1. -/
def entryC1 : CachedError :=
  { error := errC, timestamp := 2, count := 1, lastOccurrence := 2, key := "C::" }

/-- Sample store whose entries have counts 3, 1, 1. -/
def cache311 : CacheMap := [("A::", entryA3), ("B::", entryB1), ("C::", entryC1)]

/-- Store state after one occurrence of `errQuery` at instant 0. -/
def cacheQ1 : CacheMap := (addError defaultDedupOptions.toCacheOptions [] errQuery 0).cache

/-- Entry produced by the second occurrence of `errQuery` at instant 1000000:
count 2, `lastOccurrence` already advanced to 1000000. -/
def entryQuery2 : CachedError :=
  { error := errQuery, timestamp := 0, count := 2, lastOccurrence := 1000000,
    key := defaultKeyGenerator errQuery }

/-- Options with capacity 2, for the concrete eviction scenario. -/
def optsMax2 : ErrorCacheOptions :=
  { ttl := 300000, maxSize := 2, similarityThreshold := 0.8 }

/-- Three pairwise-distinct signals inserted at instants 0, 1, 2. -/
def items3 : List (AppError × Int) := [(errA, 0), (errB, 1), (errC, 2)]

/-! Helper lemmas about the map embedding. -/

theorem mapGet_eq_none_iff (cache : CacheMap) (key : String) :
    mapGet cache key = none ↔ key ∉ cache.map Prod.fst := by
  induction cache with
  | nil => simp [mapGet]
  | cons kv rest ih =>
      by_cases h : kv.1 = key
      · simp [mapGet, h]
      · simp only [mapGet, if_neg h, ih, List.map_cons, List.mem_cons]
        constructor
        · intro hn hc
          rcases hc with hc | hc
          · exact h hc.symm
          · exact hn hc
        · intro hn hc
          exact hn (Or.inr hc)

theorem mapGet_mem {cache : CacheMap} {key : String} {v : CachedError}
    (h : mapGet cache key = some v) : (key, v) ∈ cache := by
  induction cache with
  | nil => simp [mapGet] at h
  | cons kv rest ih =>
      by_cases hk : kv.1 = key
      · simp only [mapGet, if_pos hk, Option.some.injEq] at h
        subst h
        subst hk
        exact List.mem_cons_self _ _
      · simp only [mapGet, if_neg hk] at h
        exact List.mem_cons_of_mem _ (ih h)

theorem findSimilarError_mem {opts : ErrorCacheOptions} {cache : CacheMap} {e : AppError}
    {v : CachedError} (h : findSimilarError opts cache e = some v) :
    ∃ kv, kv ∈ cache ∧ kv.2 = v := by
  induction cache with
  | nil => simp [findSimilarError] at h
  | cons kv rest ih =>
      by_cases hs : calculateSimilarity e kv.2.error ≥ opts.similarityThreshold
      · simp only [findSimilarError, if_pos hs, Option.some.injEq] at h
        exact ⟨kv, List.mem_cons_self _ _, h⟩
      · simp only [findSimilarError, if_neg hs] at h
        obtain ⟨kw, hm, hv⟩ := ih h
        exact ⟨kw, List.mem_cons_of_mem _ hm, hv⟩

theorem findSimilarError_eq_none {opts : ErrorCacheOptions} {cache : CacheMap} {e : AppError}
    (h : ∀ kv ∈ cache, calculateSimilarity e kv.2.error < opts.similarityThreshold) :
    findSimilarError opts cache e = none := by
  induction cache with
  | nil => rfl
  | cons kv rest ih =>
      have hlt := h kv (List.mem_cons_self _ _)
      simp only [findSimilarError, if_neg (not_le.mpr hlt)]
      exact ih (fun kw hm => h kw (List.mem_cons_of_mem _ hm))

/-! Claim C1. -/

/-- C1 counterexample: two contexts that are permutations of each other (the
same unordered key/value mapping, different insertion order) derive different
keys, because `JSON.stringify` serializes keys in insertion order. -/
theorem C1_counterexample :
    ctxAB.Perm ctxBA ∧ defaultKeyGenerator errCtxAB ≠ defaultKeyGenerator errCtxBA :=
  ⟨by decide, by decide⟩

/-- C1 (amended): `deriveKey` is pure and deterministic, and depends only on
`code`, `message` and the context as the ordered key/value sequence that
`JSON.stringify` sees — in particular it is independent of `statusCode` and
hence of severity. Order-independence over the context does NOT hold. -/
theorem C1_deriveKey_deterministic (a b : AppError)
    (hcode : a.code = b.code) (hmsg : a.message = b.message)
    (hctx : a.context = b.context) :
    defaultKeyGenerator a = defaultKeyGenerator b := by
  simp [defaultKeyGenerator, hcode, hmsg, hctx]

/-- C1 witness: the amended theorem applied to two signals that differ in
`statusCode` (hence in severity: 500 is critical, 404 high). -/
theorem C1_deriveKey_deterministic_witness :
    defaultKeyGenerator { code := "E", message := "m", statusCode := 500, context := none } =
      defaultKeyGenerator { code := "E", message := "m", statusCode := 404, context := none } :=
  C1_deriveKey_deterministic _ _ rfl rfl rfl

/-! Claim C9. -/

/-- C9: with deduplication disabled, `processError` returns
`isDuplicate=false`, `shouldLog=true`, `shouldAlert=true` and the signal's
key, leaves the store untouched, and fires no callback. -/
theorem C9_disabled_frame (opts : DeduplicationOptions) (cache : CacheMap) (error : AppError)
    (now nowCheck : Int) (h : opts.enabled = false) :
    processError opts cache error now nowCheck =
      ({ isDuplicate := false, cachedError := none, shouldLog := true, shouldAlert := true,
         deduplicationKey := generateKey error }, cache, ([] : List DedupEvent)) := by
  simp [processError, h]

/-- C9 witness: the theorem applied to a disabled service on a sample state. -/
theorem C9_disabled_frame_witness :
    processError { defaultDedupOptions with enabled := false } cache311 errQuery 0 0 =
      ({ isDuplicate := false, cachedError := none, shouldLog := true, shouldAlert := true,
         deduplicationKey := generateKey errQuery }, cache311, ([] : List DedupEvent)) :=
  C9_disabled_frame _ _ _ _ _ rfl

/-! Claim C10. -/

/-- C10: store lookups and removals are total and explicit about absence:
`getError` returns `none` exactly on unknown keys, `removeError` reports
`true` exactly when the key was present, removes exactly that key, and
`clear` empties the store. -/
theorem C10_lookup_removal_total (cache : CacheMap) (key : String) :
    (getError cache key = none ↔ key ∉ cache.map Prod.fst) ∧
    ((removeError cache key).2 = true ↔ key ∈ cache.map Prod.fst) ∧
    (∀ kv, kv ∈ (removeError cache key).1 ↔ kv ∈ cache ∧ kv.1 ≠ key) ∧
    clear cache = [] := by
  refine ⟨mapGet_eq_none_iff cache key, ?_, ?_, rfl⟩
  · rw [removeError, Option.isSome_iff_exists]
    constructor
    · rintro ⟨v, hv⟩
      exact List.mem_map_of_mem Prod.fst (mapGet_mem hv)
    · intro hmem
      rcases Option.eq_none_or_eq_some (mapGet cache key) with hn | ⟨v, hv⟩
      · exact absurd hmem ((mapGet_eq_none_iff cache key).mp hn)
      · exact ⟨v, hv⟩
  · intro kv
    simp [removeError, List.mem_filter]

/-- C10 witness: lookup of an absent key yields `none`; removal of a present
key reports `true`. -/
theorem C10_lookup_removal_total_witness :
    getError cache311 "missing" = none ∧ (removeError cache311 "A::").2 = true :=
  ⟨(C10_lookup_removal_total cache311 "missing").1.mpr (by decide),
   (C10_lookup_removal_total cache311 "A::").2.1.mpr (by decide)⟩

/-! Helper lemmas for sweeps and statistics. -/

theorem length_filter_not_add_countP {α : Type} (l : List α) (p : α → Bool) :
    (l.filter (fun a => !(p a))).length + l.countP p = l.length := by
  induction l with
  | nil => simp
  | cons a t ih =>
      cases h : p a <;> simp [List.filter_cons, List.countP_cons, h] <;> omega

theorem nodupKeys_eq {cache : CacheMap} (h : (cache.map Prod.fst).Nodup)
    {kv kw : String × CachedError} (h1 : kv ∈ cache) (h2 : kw ∈ cache) (he : kv.1 = kw.1) :
    kv = kw := by
  induction cache with
  | nil => cases h1
  | cons x t ih =>
      simp only [List.map_cons, List.nodup_cons] at h
      rcases List.mem_cons.mp h1 with rfl | h1t
      · rcases List.mem_cons.mp h2 with rfl | h2t
        · rfl
        · have : kv.1 ∈ t.map Prod.fst := he ▸ List.mem_map_of_mem Prod.fst h2t
          exact absurd this h.1
      · rcases List.mem_cons.mp h2 with rfl | h2t
        · have : kw.1 ∈ t.map Prod.fst := he ▸ List.mem_map_of_mem Prod.fst h1t
          exact absurd this h.1
        · exact ih h.2 h1t h2t

theorem foldl_add_count (l : List CachedError) (n : Nat) :
    l.foldl (fun sum cached => sum + cached.count) n = n + (l.map CachedError.count).sum := by
  induction l generalizing n with
  | nil => simp
  | cons a t ih => simp only [List.foldl_cons, List.map_cons, List.sum_cons, ih]; omega

theorem jsRound_close (q : ℚ) : |(jsRound q : ℚ) - q| ≤ 1/2 := by
  rw [jsRound, abs_le]
  constructor
  · have h := Int.lt_floor_add_one (q + 1/2)
    push_cast at h ⊢
    linarith
  · have h := Int.floor_le (q + 1/2)
    push_cast at h ⊢
    linarith

theorem jsRound_div_close (x : ℚ) : |(jsRound (x * 100) : ℚ) / 100 - x| ≤ 1/200 := by
  have hc := jsRound_close (x * 100)
  have heq : (jsRound (x * 100) : ℚ) / 100 - x = ((jsRound (x * 100) : ℚ) - x * 100) / 100 := by
    ring
  rw [heq, abs_div, show |(100 : ℚ)| = 100 from abs_of_pos (by norm_num)]
  linarith

/-! Claim C8. -/

/-- C8: the TTL sweep keeps exactly the entries with
`now - firstSeen ≤ ttl`, returns the number removed, removes every entry
strictly older than `ttl` (in particular an entry inserted at `t` is gone
from `getAllErrors` after a sweep at any instant after `t + ttl`), and
retains the young ones. -/
theorem C8_ttl_sweep (opts : ErrorCacheOptions) (cache : CacheMap) (now : Int) :
    (∀ kv, kv ∈ (clearExpired opts cache now).1 ↔
        kv ∈ cache ∧ now - kv.2.timestamp ≤ opts.ttl) ∧
    ((clearExpired opts cache now).1.length + (clearExpired opts cache now).2 = cache.length) ∧
    (∀ kv ∈ cache, now > kv.2.timestamp + opts.ttl →
        kv ∉ (clearExpired opts cache now).1) ∧
    (CacheWF cache → ∀ kv ∈ cache, now > kv.2.timestamp + opts.ttl →
        kv.2 ∉ getAllErrors (clearExpired opts cache now).1) := by
  have hmem : ∀ kv, kv ∈ (clearExpired opts cache now).1 ↔
      kv ∈ cache ∧ now - kv.2.timestamp ≤ opts.ttl := by
    intro kv
    simp [clearExpired, List.mem_filter, not_lt]
  refine ⟨hmem, ?_, ?_, ?_⟩
  · show (List.filter (fun kv => decide (¬ now - kv.2.timestamp > opts.ttl)) cache).length
        + List.countP (fun kv => decide (now - kv.2.timestamp > opts.ttl)) cache = cache.length
    simp only [decide_not]
    exact length_filter_not_add_countP cache _
  · intro kv hkv hold hin
    have := (hmem kv).mp hin
    omega
  · intro hwf kv hkv hold hin
    obtain ⟨kw, hkw, hsnd⟩ := List.mem_map.mp hin
    have hkwc : kw ∈ cache := ((hmem kw).mp hkw).1
    have hkeep : now - kw.2.timestamp ≤ opts.ttl := ((hmem kw).mp hkw).2
    have hkeys : kw.1 = kv.1 := by
      rw [hwf.keyMatch kw hkwc, hwf.keyMatch kv hkv, hsnd]
    have : kw = kv := nodupKeys_eq hwf.nodupKeys hkwc hkv hkeys
    subst this
    omega

/-- C8 witness: at instant 300002 with ttl 300000, the entries stamped 0 and
1 are swept while the entry stamped 2 is retained. -/
theorem C8_ttl_sweep_witness :
    ("A::", entryA3) ∉ (clearExpired defaultOptions cache311 300002).1 ∧
    ("C::", entryC1) ∈ (clearExpired defaultOptions cache311 300002).1 :=
  ⟨(C8_ttl_sweep defaultOptions cache311 300002).2.2.1 _ (by decide) (by decide),
   ((C8_ttl_sweep defaultOptions cache311 300002).1 _).mpr ⟨by decide, by decide⟩⟩

/-! Claim C7. -/

/-- C7 counterexample: a store holding one entry with count 3 has exact hit
ratio 2/3 but reports `hitRate = 0.67`, because the code rounds to two
decimal places. -/
theorem C7_counterexample :
    (getStats [("A::", entryA3)]).totalErrors = 3 ∧
    (getStats [("A::", entryA3)]).duplicateErrors = 2 ∧
    (getStats [("A::", entryA3)]).hitRate = 67/100 ∧
    (67/100 : ℚ) ≠ 2/3 := by
  norm_num [getStats, entryA3, jsRound]

/-- C7 (amended): the statistics snapshot reports `totalErrors` as the sum of
counts, `uniqueErrors` as the number of entries, `duplicateErrors` as their
difference, and `hitRate` as `duplicateErrors / totalErrors` ROUNDED to two
decimal places (`Math.round(r * 100) / 100`; 0 when `totalErrors` is 0) —
within 1/200 of the exact ratio; for counts `[3, 1, 1]` the rounding is exact
and the snapshot is `(5, 3, 2, 0.4)`. -/
theorem C7_stats_formulas (cache : CacheMap) :
    (getStats cache).totalErrors = ((cache.map Prod.snd).map CachedError.count).sum ∧
    (getStats cache).uniqueErrors = cache.length ∧
    (getStats cache).duplicateErrors =
      ((getStats cache).totalErrors : Int) - ((getStats cache).uniqueErrors : Int) ∧
    ((getStats cache).totalErrors = 0 → (getStats cache).hitRate = 0) ∧
    ((getStats cache).totalErrors > 0 →
      (getStats cache).hitRate =
        ((jsRound ((((getStats cache).duplicateErrors : ℚ)
            / ((getStats cache).totalErrors : ℚ)) * 100) : ℚ) / 100) ∧
      |(getStats cache).hitRate -
        ((getStats cache).duplicateErrors : ℚ) / ((getStats cache).totalErrors : ℚ)|
          ≤ 1/200) ∧
    getStats cache311 =
      { totalErrors := 5, uniqueErrors := 3, duplicateErrors := 2,
        hitRate := 2/5, oldestError := some 0, newestError := some 2 } := by
  have htot : (getStats cache).totalErrors
      = ((cache.map Prod.snd).map CachedError.count).sum := by
    simp [getStats, foldl_add_count]
  have huniq : (getStats cache).uniqueErrors = cache.length := by
    simp [getStats]
  have hdup : (getStats cache).duplicateErrors
      = ((getStats cache).totalErrors : Int) - ((getStats cache).uniqueErrors : Int) := by
    simp [getStats, foldl_add_count]
  refine ⟨htot, huniq, hdup, ?_, ?_, ?_⟩
  · intro h0
    simp only [getStats, foldl_add_count, Nat.zero_add] at h0 ⊢
    rw [if_neg (by omega)]
    norm_num [jsRound]
  · intro hpos
    simp only [getStats, foldl_add_count, Nat.zero_add] at hpos ⊢
    rw [if_pos hpos]
    exact ⟨rfl, jsRound_div_close _⟩
  · norm_num [getStats, cache311, entryA3, entryB1, entryC1, jsRound, List.min?, List.max?]

/-! Helper lemma: shape of the duplicate path of `processError`. -/

theorem processError_duplicate_spec (opts : DeduplicationOptions) (cache : CacheMap)
    (error : AppError) (now nowCheck : Int) (hen : opts.enabled = true) :
    ∀ ce, (processError opts cache error now nowCheck).1.cachedError = some ce →
      (processError opts cache error now nowCheck).1.isDuplicate = true ∧
      (processError opts cache error now nowCheck).1.shouldLog
        = shouldLogDuplicate ce nowCheck ∧
      (processError opts cache error now nowCheck).1.shouldAlert
        = shouldAlertDuplicate ce ∧
      (∃ kv, kv ∈ cache ∧
        ce = { kv.2 with count := kv.2.count + 1, lastOccurrence := now }) := by
  intro ce hce
  cases hget : mapGet cache (defaultKeyGenerator error) with
  | some existing =>
      have hmem := mapGet_mem hget
      simp only [processError, hen, addError, hget, Bool.true_eq_false, if_false, if_true,
        ite_true, ite_false, Option.some.injEq] at hce ⊢
      subst hce
      exact ⟨by trivial, by rfl, by rfl, ⟨_, hmem, by rfl⟩⟩
  | none =>
      cases hsim : findSimilarError opts.toCacheOptions cache error with
      | some similarError =>
          obtain ⟨kv, hmem, hv⟩ := findSimilarError_mem hsim
          simp only [processError, hen, addError, hget, hsim, Bool.true_eq_false, if_false,
            if_true, ite_true, ite_false, Option.some.injEq] at hce ⊢
          subst hce
          exact ⟨by trivial, by rfl, by rfl, ⟨kv, hmem, by rw [hv]⟩⟩
      | none =>
          simp [processError, hen, addError, hget, hsim] at hce

/-! Claim C2. -/

/-- C2 counterexample: a second occurrence of `errQuery` one million
milliseconds after the first (far beyond 5 minutes since the previous
`lastSeen`, which was 0) is a duplicate with count 2, yet `shouldLog` is
`false`: the policy reads `lastOccurrence` only after this very occurrence
overwrote it, so the elapsed-time disjunct of the claim never fires. -/
theorem C2_counterexample :
    (processError defaultDedupOptions cacheQ1 errQuery 1000000 1000000).1.isDuplicate = true ∧
    ((processError defaultDedupOptions cacheQ1 errQuery 1000000 1000000).1.cachedError.map
        CachedError.count = some 2) ∧
    ((mapGet cacheQ1 (defaultKeyGenerator errQuery)).map CachedError.lastOccurrence
        = some 0) ∧
    ¬ (2 % 10 = 0) ∧ ((1000000 : Int) - 0 > 300000) ∧
    (processError defaultDedupOptions cacheQ1 errQuery 1000000 1000000).1.shouldLog = false := by
  refine ⟨?_, ?_, ?_, ?_, ?_, ?_⟩ <;> decide

/-- C2 (amended): for a duplicate, the matched entry's `lastSeen` is first
updated to the occurrence instant `now`, and `shouldLog` is then
`count % 10 == 0 OR (checkInstant − now > 300000)`; since the check runs in
the same call at the same instant (`nowCheck = now`), this reduces to
`shouldLog = (count % 10 == 0)`: the elapsed time since the PREVIOUS
occurrence plays no role, and only occurrences whose count is a multiple of
10 log. -/
theorem C2_log_cadence (opts : DeduplicationOptions) (cache : CacheMap) (error : AppError)
    (now nowCheck : Int) (hen : opts.enabled = true) :
    ∀ ce, (processError opts cache error now nowCheck).1.cachedError = some ce →
      ce.lastOccurrence = now ∧
      ((processError opts cache error now nowCheck).1.shouldLog = true ↔
        (ce.count % 10 = 0 ∨ nowCheck - now > 300000)) ∧
      (nowCheck = now →
        ((processError opts cache error now nowCheck).1.shouldLog = true ↔
          ce.count % 10 = 0)) := by
  intro ce hce
  obtain ⟨hdup, hlog, halert, kv, hmem, hshape⟩ :=
    processError_duplicate_spec opts cache error now nowCheck hen ce hce
  have hlast : ce.lastOccurrence = now := by rw [hshape]
  refine ⟨hlast, ?_, ?_⟩
  · rw [hlog]
    simp only [shouldLogDuplicate, Bool.or_eq_true, decide_eq_true_eq, hlast]
  · intro h
    subst h
    rw [hlog]
    simp only [shouldLogDuplicate, Bool.or_eq_true, decide_eq_true_eq, hlast]
    omega

/-- C2 witness: the amended theorem applied to the concrete duplicate of the
counterexample, with the policy check at the same instant as the occurrence. -/
theorem C2_log_cadence_witness :
    (processError defaultDedupOptions cacheQ1 errQuery 1000000 1000000).1.shouldLog = true ↔
      entryQuery2.count % 10 = 0 :=
  (C2_log_cadence defaultDedupOptions cacheQ1 errQuery 1000000 1000000 rfl
    entryQuery2 (by decide)).2.2 rfl

/-! Claim C3. -/

/-- C3: for every duplicate, `shouldAlert` is literally
`count == 1 OR count % 50 == 0`, and every entry matched on the duplicate
path had its count (at least 1 beforehand, by store construction)
incremented before the check, so its count is at least 2 and the
`count == 1` disjunct is unreachable: on the duplicate path `shouldAlert`
is equivalent to `count % 50 == 0` alone. -/
theorem C3_alert_cadence (opts : DeduplicationOptions) (cache : CacheMap) (error : AppError)
    (now nowCheck : Int) (hen : opts.enabled = true)
    (hwf : ∀ kv ∈ cache, 1 ≤ kv.2.count) :
    ∀ ce, (processError opts cache error now nowCheck).1.cachedError = some ce →
      2 ≤ ce.count ∧
      ((processError opts cache error now nowCheck).1.shouldAlert = true ↔
        (ce.count = 1 ∨ ce.count % 50 = 0)) ∧
      ((processError opts cache error now nowCheck).1.shouldAlert = true ↔
        ce.count % 50 = 0) := by
  intro ce hce
  obtain ⟨hdup, hlog, halert, kv, hmem, hshape⟩ :=
    processError_duplicate_spec opts cache error now nowCheck hen ce hce
  have hpos := hwf kv hmem
  have hcount : ce.count = kv.2.count + 1 := by rw [hshape]
  have h2 : 2 ≤ ce.count := by omega
  refine ⟨h2, ?_, ?_⟩
  · rw [halert]
    simp only [shouldAlertDuplicate, Bool.or_eq_true, decide_eq_true_eq]
  · rw [halert]
    simp only [shouldAlertDuplicate, Bool.or_eq_true, decide_eq_true_eq]
    omega

/-- C3 witness: the theorem applied to the concrete duplicate of `errQuery`:
its count 2 is at least 2 and `shouldAlert` reduces to `2 % 50 == 0`. -/
theorem C3_alert_cadence_witness :
    2 ≤ entryQuery2.count ∧
    ((processError defaultDedupOptions cacheQ1 errQuery 1000000 1000000).1.shouldAlert = true ↔
      entryQuery2.count % 50 = 0) :=
  ⟨(C3_alert_cadence defaultDedupOptions cacheQ1 errQuery 1000000 1000000 rfl
      (by decide) entryQuery2 (by decide)).1,
   (C3_alert_cadence defaultDedupOptions cacheQ1 errQuery 1000000 1000000 rfl
      (by decide) entryQuery2 (by decide)).2.2⟩

/-! Helper lemmas for `cleanup`. -/

theorem filter_eq_self_of_forall {α : Type} (l : List α) (p : α → Bool)
    (h : ∀ a ∈ l, p a = true) : l.filter p = l := by
  induction l with
  | nil => rfl
  | cons a t ih =>
      rw [List.filter_cons, if_pos (h a (List.mem_cons_self a t)),
        ih (fun b hb => h b (List.mem_cons_of_mem a hb))]

theorem clearExpired_fst_eq_self {opts : ErrorCacheOptions} {cache : CacheMap} {now : Int}
    (h : ∀ kv ∈ cache, now - kv.2.timestamp ≤ opts.ttl) :
    (clearExpired opts cache now).1 = cache := by
  show cache.filter (fun kv => decide (¬ now - kv.2.timestamp > opts.ttl)) = cache
  apply filter_eq_self_of_forall
  intro kv hkv
  exact decide_eq_true (by have := h kv hkv; omega)

theorem cleanup_eq_self {opts : ErrorCacheOptions} {cache : CacheMap} {now : Int}
    (hlen : cache.length ≤ opts.maxSize)
    (h : ∀ kv ∈ cache, now - kv.2.timestamp ≤ opts.ttl) :
    cleanup opts cache now = cache := by
  simp only [cleanup]
  rw [clearExpired_fst_eq_self h, if_neg (by omega)]

/-! Claim C5. -/

/-- C5: inserting the same Signal n times (with at least unit capacity and a
nonnegative ttl) yields exactly one entry with count n: the first call
returns `isDuplicate = false`, and the call after the n-th insertion returns
`isDuplicate = true` with the entry's count incremented to n + 1. -/
theorem C5_exact_duplicate_counting (opts : ErrorCacheOptions) (error : AppError)
    (times : Nat → Int) (hmax : 1 ≤ opts.maxSize) (httl : 0 ≤ opts.ttl) :
    (addError opts [] error (times 0)).isDuplicate = false ∧
    (∀ n, 1 ≤ n → iterInsert opts error times n =
      [(defaultKeyGenerator error,
        { error := error, timestamp := times 0, count := n,
          lastOccurrence := times (n - 1), key := defaultKeyGenerator error })]) ∧
    (∀ n, 1 ≤ n →
      (addError opts (iterInsert opts error times n) error (times n)).isDuplicate = true ∧
      (addError opts (iterInsert opts error times n) error (times n)).cachedError.count
        = n + 1) := by
  have hmain : ∀ n, 1 ≤ n → iterInsert opts error times n =
      [(defaultKeyGenerator error,
        { error := error, timestamp := times 0, count := n,
          lastOccurrence := times (n - 1), key := defaultKeyGenerator error })] := by
    intro n hn
    induction n, hn using Nat.le_induction with
    | base =>
        show (addError opts [] error (times 0)).cache = _
        simp only [addError, mapGet, findSimilarError, List.nil_append]
        rw [cleanup_eq_self (by simpa using hmax) ?_]
        intro kv hkv
        rw [List.mem_singleton] at hkv
        subst hkv
        show times 0 - times 0 ≤ opts.ttl
        omega
    | succ n hn ih =>
        show (addError opts (iterInsert opts error times n) error (times n)).cache = _
        rw [ih]
        simp only [addError, mapGet, mapUpdate, List.map, eq_self_iff_true, if_true, ite_true,
          Nat.add_sub_cancel]
  refine ⟨rfl, hmain, ?_⟩
  intro n hn
  rw [hmain n hn]
  constructor
  · simp [addError, mapGet]
  · simp [addError, mapGet]

/-- C5 witness: the spec's concrete scenario — two identical database errors
"Query failed"; the second call reports a duplicate with count 2. -/
theorem C5_exact_duplicate_counting_witness :
    (addError defaultOptions [] errQuery 0).isDuplicate = false ∧
    (addError defaultOptions (iterInsert defaultOptions errQuery (fun _ => 0) 1)
        errQuery 0).isDuplicate = true ∧
    (addError defaultOptions (iterInsert defaultOptions errQuery (fun _ => 0) 1)
        errQuery 0).cachedError.count = 2 :=
  ⟨(C5_exact_duplicate_counting defaultOptions errQuery (fun _ => 0)
      (by norm_num [defaultOptions]) (by norm_num [defaultOptions])).1,
   ((C5_exact_duplicate_counting defaultOptions errQuery (fun _ => 0)
      (by norm_num [defaultOptions]) (by norm_num [defaultOptions])).2.2 1 le_rfl).1,
   ((C5_exact_duplicate_counting defaultOptions errQuery (fun _ => 0)
      (by norm_num [defaultOptions]) (by norm_num [defaultOptions])).2.2 1 le_rfl).2⟩

/-! Helper lemmas for the similarity scorer. -/

theorem levenshteinDistance_le_max (s t : List Char) :
    levenshteinDistance s t ≤ max s.length t.length := by
  induction s, t using levenshteinDistance.induct with
  | case1 t => simp [levenshteinDistance]
  | case2 s => simp [levenshteinDistance]
  | case3 a s b t ih1 ih2 ih3 =>
      rw [levenshteinDistance]
      simp only [List.length_cons]
      have h3 : levenshteinDistance s t + (if a = b then 0 else 1)
          ≤ max s.length t.length + 1 := by
        split_ifs <;> omega
      omega

theorem calculateStringSimilarity_mem (s t : List Char) :
    0 ≤ calculateStringSimilarity s t ∧ calculateStringSimilarity s t ≤ 1 := by
  simp only [calculateStringSimilarity]
  split_ifs with h
  · norm_num
  · have hd := levenshteinDistance_le_max s t
    have hM : (0 : ℚ) < ((max s.length t.length : Nat) : ℚ) := by
      exact_mod_cast Nat.pos_of_ne_zero h
    have hdr : (levenshteinDistance s t : ℚ) / ((max s.length t.length : Nat) : ℚ) ≤ 1 := by
      rw [div_le_one hM]
      exact_mod_cast hd
    have hdr0 : 0 ≤ (levenshteinDistance s t : ℚ) / ((max s.length t.length : Nat) : ℚ) :=
      div_nonneg (by positivity) (le_of_lt hM)
    constructor <;> linarith

theorem calculateContextSimilarity_mem (c1 c2 : Option Ctx) :
    0 ≤ calculateContextSimilarity c1 c2 ∧ calculateContextSimilarity c1 c2 ≤ 1 := by
  match c1, c2 with
  | none, none => exact ⟨by norm_num [calculateContextSimilarity],
      by norm_num [calculateContextSimilarity]⟩
  | some x, none => exact ⟨le_of_eq rfl, by norm_num [calculateContextSimilarity]⟩
  | none, some y => exact ⟨le_of_eq rfl, by norm_num [calculateContextSimilarity]⟩
  | some x, some y =>
      simp only [calculateContextSimilarity]
      split_ifs with h
      · norm_num
      · have hpos : (0 : ℚ) <
            (((x.map Prod.fst).filter (fun key => (y.map Prod.fst).contains key)).length : ℚ) := by
          exact_mod_cast Nat.pos_of_ne_zero h
        have hle : ((((x.map Prod.fst).filter (fun key => (y.map Prod.fst).contains key)).filter
              (fun key => decide ((ctxLookup x key).map stringifyVal
                = (ctxLookup y key).map stringifyVal))).length : ℚ)
            ≤ (((x.map Prod.fst).filter (fun key => (y.map Prod.fst).contains key)).length : ℚ) := by
          exact_mod_cast List.length_filter_le _ _
        constructor
        · positivity
        · rw [div_le_one hpos]
          exact hle

theorem calculateContextSimilarity_eq_spec (c1 c2 : Option Ctx) :
    calculateContextSimilarity c1 c2 = contextSimilaritySpec c1 c2 := by
  match c1, c2 with
  | none, none => rfl
  | some x, none => rfl
  | none, some y => rfl
  | some x, some y =>
      simp only [calculateContextSimilarity, contextSimilaritySpec]
      split_ifs with h
      · rw [List.length_eq_zero] at h
        rw [h]
        simp
      · rfl

theorem calculateSimilarity_eq (a b : AppError) :
    calculateSimilarity a b =
      (if a.code = b.code then 0.4 else 0)
      + calculateStringSimilarity a.message.data b.message.data * 0.3
      + (if a.statusCode = b.statusCode then 0.2 else 0)
      + calculateContextSimilarity a.context b.context * 0.1 := by
  simp only [calculateSimilarity]
  rw [if_pos (by norm_num : (0.4 + 0.3 + 0.2 + 0.1 : ℚ) > 0),
    show (0.4 + 0.3 + 0.2 + 0.1 : ℚ) = 1 by norm_num, div_one]

theorem calculateSimilarity_eq_spec (a b : AppError) :
    calculateSimilarity a b = similaritySpec a b := by
  rw [calculateSimilarity_eq]
  rw [calculateContextSimilarity_eq_spec]
  simp only [calculateStringSimilarity, similaritySpec]
  ring

/-! Claim C6. -/

/-- C6: the similarity score always lies in [0, 1]; it equals the spec's
weighted sum (0.4 code equality + 0.3 normalized edit-distance message
similarity, empty/empty scoring 1 + 0.2 statusCode equality + 0.1 context
similarity); a cached signal is folded as a similar duplicate exactly when
the score reaches the configured threshold; and missing contexts are handled
totally (both absent scores 1, exactly one absent scores 0 — no error). -/
theorem C6_similarity_contract (a b : AppError) (opts : ErrorCacheOptions) (k : String)
    (ce : CachedError) :
    0 ≤ calculateSimilarity a b ∧ calculateSimilarity a b ≤ 1 ∧
    calculateSimilarity a b = similaritySpec a b ∧
    (findSimilarError opts [(k, ce)] a = some ce ↔
      opts.similarityThreshold ≤ calculateSimilarity a ce.error) ∧
    calculateContextSimilarity none none = 1 ∧
    (∀ c, calculateContextSimilarity (some c) none = 0) ∧
    (∀ c, calculateContextSimilarity none (some c) = 0) := by
  obtain ⟨hm0, hm1⟩ := calculateStringSimilarity_mem a.message.data b.message.data
  obtain ⟨hc0, hc1⟩ := calculateContextSimilarity_mem a.context b.context
  refine ⟨?_, ?_, calculateSimilarity_eq_spec a b, ?_, rfl, fun c => rfl, fun c => rfl⟩
  · rw [calculateSimilarity_eq]
    split_ifs <;> linarith
  · rw [calculateSimilarity_eq]
    split_ifs <;> linarith
  · simp only [findSimilarError]
    constructor
    · intro h
      by_cases hs : calculateSimilarity a ce.error ≥ opts.similarityThreshold
      · exact hs
      · rw [if_neg hs] at h
        cases h
    · intro h
      rw [if_pos h]

/-- C7 witness: the amended theorem applied to the concrete store with counts
3, 1, 1, whose totalErrors is positive. -/
theorem C7_stats_formulas_witness :
    (getStats cache311).hitRate =
      ((jsRound ((((getStats cache311).duplicateErrors : ℚ)
          / ((getStats cache311).totalErrors : ℚ)) * 100) : ℚ) / 100) ∧
    |(getStats cache311).hitRate -
      ((getStats cache311).duplicateErrors : ℚ) / ((getStats cache311).totalErrors : ℚ)|
        ≤ 1/200 :=
  (C7_stats_formulas cache311).2.2.2.2.1 (by decide)

/-! Helper lemmas for capacity eviction. -/

theorem insertByTimestamp_perm (x : String × CachedError) (l : CacheMap) :
    (insertByTimestamp x l).Perm (x :: l) := by
  induction l with
  | nil => exact List.Perm.refl _
  | cons y ys ih =>
      simp only [insertByTimestamp]
      split_ifs with h
      · exact List.Perm.refl _
      · exact (ih.cons y).trans (List.Perm.swap x y ys)

theorem sortByTimestamp_perm (l : CacheMap) : (sortByTimestamp l).Perm l := by
  induction l with
  | nil => exact List.Perm.refl _
  | cons x xs ih => exact (insertByTimestamp_perm x _).trans (ih.cons x)

theorem insertByTimestamp_eq_cons {x : String × CachedError} {l : CacheMap}
    (h : ∀ y ∈ l, x.2.timestamp < y.2.timestamp) : insertByTimestamp x l = x :: l := by
  cases l with
  | nil => rfl
  | cons y ys =>
      simp only [insertByTimestamp]
      rw [if_pos (h y (List.mem_cons_self y ys))]

theorem sortByTimestamp_eq_self {l : CacheMap}
    (h : l.Pairwise (fun a b => a.2.timestamp < b.2.timestamp)) : sortByTimestamp l = l := by
  induction l with
  | nil => rfl
  | cons x xs ih =>
      rw [List.pairwise_cons] at h
      simp only [sortByTimestamp]
      rw [ih h.2, insertByTimestamp_eq_cons h.1]

theorem length_filter_lt {α : Type} {l : List α} {p : α → Bool} {x : α}
    (hx : x ∈ l) (hpx : p x = false) : (l.filter p).length < l.length := by
  induction l with
  | nil => cases hx
  | cons a t ih =>
      rcases List.mem_cons.mp hx with rfl | hxt
      · rw [List.filter_cons, if_neg (by simp [hpx])]
        have := List.length_filter_le p t
        simp only [List.length_cons]
        omega
      · rw [List.filter_cons]
        split_ifs with h
        · simpa using ih hxt
        · have := ih hxt
          simp only [List.length_cons]
          omega

theorem filter_not_mem_singleton_key {x : String × CachedError} {xs : CacheMap}
    (h : x.1 ∉ xs.map Prod.fst) :
    ((x :: xs).filter (fun kv => decide (¬ kv.1 ∈ [x.1]))) = xs := by
  rw [List.filter_cons, if_neg (by simp)]
  apply filter_eq_self_of_forall
  intro kv hkv
  apply decide_eq_true
  simp only [List.mem_singleton]
  intro hk
  exact h (hk ▸ List.mem_map_of_mem Prod.fst hkv)

theorem cleanup_length_le (opts : ErrorCacheOptions) (c : CacheMap) (now : Int)
    (hlen : c.length ≤ opts.maxSize + 1) :
    (cleanup opts c now).length ≤ opts.maxSize := by
  simp only [cleanup]
  split_ifs with h
  · have hc1 : (clearExpired opts c now).1.length ≤ c.length := List.length_filter_le _ _
    have hne : (clearExpired opts c now).1.length - opts.maxSize = 1 := by omega
    rw [hne]
    have hpos : 0 < (sortByTimestamp (clearExpired opts c now).1).length := by
      rw [(sortByTimestamp_perm (clearExpired opts c now).1).length_eq]
      omega
    obtain ⟨z, zs, hzs⟩ := List.exists_cons_of_ne_nil (List.ne_nil_of_length_pos hpos)
    rw [hzs]
    simp only [List.take_succ_cons, List.take_zero, List.map_cons, List.map_nil]
    have hz_mem : z ∈ (clearExpired opts c now).1 := by
      have hz : z ∈ sortByTimestamp (clearExpired opts c now).1 := by
        rw [hzs]
        exact List.mem_cons_self z zs
      exact (sortByTimestamp_perm _).mem_iff.mp hz
    have hflt := length_filter_lt (l := (clearExpired opts c now).1)
      (p := fun kv => decide (¬ kv.1 ∈ [z.1])) (x := z) hz_mem (by simp)
    omega
  · have hc1 : (clearExpired opts c now).1.length ≤ c.length := List.length_filter_le _ _
    omega

theorem addError_length_le (opts : ErrorCacheOptions) (cache : CacheMap) (e : AppError)
    (now : Int) (hlen : cache.length ≤ opts.maxSize) :
    (addError opts cache e now).cache.length ≤ opts.maxSize := by
  cases hget : mapGet cache (defaultKeyGenerator e) with
  | some existing =>
      simp only [addError, hget]
      simpa [mapUpdate] using hlen
  | none =>
      cases hsim : findSimilarError opts cache e with
      | some similarError =>
          simp only [addError, hget, hsim]
          simpa [mapUpdate] using hlen
      | none =>
          simp only [addError, hget, hsim]
          apply cleanup_length_le
          simp only [List.length_append, List.length_cons, List.length_nil]
          omega

theorem insertList_eq (opts : ErrorCacheOptions) (httl : 0 ≤ opts.ttl) :
    ∀ items : List (AppError × Int),
      (items.map (fun p => defaultKeyGenerator p.1)).Nodup →
      items.Pairwise (fun p q => calculateSimilarity q.1 p.1 < opts.similarityThreshold) →
      items.Pairwise (fun p q => p.2 < q.2 ∧ q.2 - p.2 ≤ opts.ttl) →
      insertList opts items =
        (items.drop (items.length - opts.maxSize)).map
          (fun p => (defaultKeyGenerator p.1, mkNewEntry p)) := by
  intro items
  induction items using List.reverseRecOn with
  | nil =>
      intro _ _ _
      simp [insertList]
  | append_singleton L p ih =>
      intro hkeys hsim htimes
      rw [List.map_append] at hkeys
      obtain ⟨hkeysL, -, hdisj⟩ := List.nodup_append.mp hkeys
      obtain ⟨hsimL, -, hsimp⟩ := List.pairwise_append.mp hsim
      obtain ⟨htimesL, -, htimesp⟩ := List.pairwise_append.mp htimes
      have hfresh : defaultKeyGenerator p.1 ∉ L.map (fun q => defaultKeyGenerator q.1) := by
        intro hmem
        exact hdisj hmem (List.mem_map_of_mem _ (List.mem_singleton_self p))
      have hstep : insertList opts (L ++ [p])
          = (addError opts (insertList opts L) p.1 p.2).cache := by
        simp [insertList, List.foldl_append]
      have hIH := ih hkeysL hsimL htimesL
      rw [hstep, hIH]
      set S := (L.drop (L.length - opts.maxSize)).map
        (fun q => (defaultKeyGenerator q.1, mkNewEntry q)) with hS
      have hSmem : ∀ kv ∈ S, ∃ q, q ∈ L ∧ kv = (defaultKeyGenerator q.1, mkNewEntry q) := by
        intro kv hkv
        rw [hS] at hkv
        obtain ⟨q, hq, rfl⟩ := List.mem_map.mp hkv
        exact ⟨q, List.drop_subset _ _ hq, rfl⟩
      have hget : mapGet S (defaultKeyGenerator p.1) = none := by
        rw [mapGet_eq_none_iff]
        intro hmem
        obtain ⟨kv, hkv, hfst⟩ := List.mem_map.mp hmem
        obtain ⟨q, hqL, rfl⟩ := hSmem kv hkv
        have hq : defaultKeyGenerator q.1 ∈ L.map (fun q => defaultKeyGenerator q.1) :=
          List.mem_map_of_mem _ hqL
        rw [show defaultKeyGenerator q.1 = defaultKeyGenerator p.1 from hfst] at hq
        exact hfresh hq
      have hsimnone : findSimilarError opts S p.1 = none := by
        apply findSimilarError_eq_none
        intro kv hkv
        obtain ⟨q, hqL, rfl⟩ := hSmem kv hkv
        exact hsimp q hqL p (List.mem_singleton_self p)
      have hSfst : S.map Prod.fst = (L.drop (L.length - opts.maxSize)).map
          (fun q => defaultKeyGenerator q.1) := by
        rw [hS, List.map_map]
        rfl
      have hSnodup : (S.map Prod.fst).Nodup := by
        rw [hSfst]
        exact List.Nodup.sublist ((List.drop_sublist _ _).map _) hkeysL
      simp only [addError, hget, hsimnone]
      show cleanup opts (S ++ [(defaultKeyGenerator p.1, mkNewEntry p)]) p.2 = _
      have hforall : ∀ kv ∈ S ++ [(defaultKeyGenerator p.1, mkNewEntry p)],
          p.2 - kv.2.timestamp ≤ opts.ttl := by
        intro kv hkv
        rcases List.mem_append.mp hkv with hkv | hkv
        · obtain ⟨q, hqL, rfl⟩ := hSmem kv hkv
          exact (htimesp q hqL p (List.mem_singleton_self p)).2
        · rw [List.mem_singleton] at hkv
          subst hkv
          show p.2 - p.2 ≤ opts.ttl
          omega
      simp only [cleanup]
      rw [clearExpired_fst_eq_self hforall]
      have hSlen : S.length = L.length - (L.length - opts.maxSize) := by
        rw [hS, List.length_map, List.length_drop]
      by_cases hcap : L.length < opts.maxSize
      · rw [if_neg (by simp only [List.length_append, List.length_cons, List.length_nil]; omega)]
        have hd1 : (L ++ [p]).length - opts.maxSize = 0 := by
          simp only [List.length_append, List.length_cons, List.length_nil]
          omega
        rw [hd1, List.drop_zero, List.map_append, hS,
          show L.length - opts.maxSize = 0 by omega, List.drop_zero]
        rfl
      · have hSlenm : S.length = opts.maxSize := by omega
        rw [if_pos (by simp only [List.length_append, List.length_cons, List.length_nil]; omega)]
        have hsorted : (S ++ [(defaultKeyGenerator p.1, mkNewEntry p)]).Pairwise
            (fun a b => a.2.timestamp < b.2.timestamp) := by
          apply List.pairwise_append.mpr
          refine ⟨?_, List.pairwise_singleton _ _, ?_⟩
          · rw [hS, List.pairwise_map]
            exact List.Pairwise.sublist (List.drop_sublist _ _) (htimesL.imp (fun h => h.1))
          · intro a ha b hb
            rw [List.mem_singleton] at hb
            subst hb
            obtain ⟨q, hqL, rfl⟩ := hSmem a ha
            exact (htimesp q hqL p (List.mem_singleton_self p)).1
        rw [sortByTimestamp_eq_self hsorted]
        rw [show (S ++ [(defaultKeyGenerator p.1, mkNewEntry p)]).length - opts.maxSize = 1 by
          simp only [List.length_append, List.length_cons, List.length_nil]; omega]
        cases hSe : S with
        | nil =>
            rw [hSe] at hSlenm
            simp only [List.length_nil] at hSlenm
            have hlen2 : (L ++ [p]).length - opts.maxSize = L.length + 1 := by
              simp only [List.length_append, List.length_cons, List.length_nil]
              omega
            have hlen3 : (L ++ [p]).length ≤ L.length + 1 := by
              simp only [List.length_append, List.length_cons, List.length_nil]
              omega
            rw [hlen2, List.drop_eq_nil_of_le hlen3, List.map_nil]
            simp only [List.nil_append, List.take_succ_cons, List.take_zero, List.map_cons,
              List.map_nil]
            rw [List.filter_cons, if_neg (by simp), List.filter_nil]
        | cons s0 Stl =>
            have hs0nin : s0.1 ∉ (Stl ++ [(defaultKeyGenerator p.1, mkNewEntry p)]).map Prod.fst := by
              rw [List.map_append, List.mem_append]
              rintro (hmem | hmem)
              · have hnd := hSnodup
                rw [hSe, List.map_cons, List.nodup_cons] at hnd
                exact hnd.1 hmem
              · simp only [List.map_cons, List.map_nil, List.mem_singleton] at hmem
                have hnotin := (mapGet_eq_none_iff S (defaultKeyGenerator p.1)).mp hget
                apply hnotin
                rw [← hmem, hSe, List.map_cons]
                exact List.mem_cons_self _ _
            show ((s0 :: (Stl ++ [(defaultKeyGenerator p.1, mkNewEntry p)])).filter
              (fun kv => decide (¬ kv.1 ∈ (List.take 1
                (s0 :: (Stl ++ [(defaultKeyGenerator p.1, mkNewEntry p)]))).map Prod.fst))) = _
            rw [show List.take 1 (s0 :: (Stl ++ [(defaultKeyGenerator p.1, mkNewEntry p)]))
              = [s0] from rfl]
            simp only [List.map_cons, List.map_nil]
            rw [filter_not_mem_singleton_key hs0nin]
            have hd1 : (L ++ [p]).length - opts.maxSize = (L.length - opts.maxSize) + 1 := by
              simp only [List.length_append, List.length_cons, List.length_nil]
              omega
            have hd2 : (L.length - opts.maxSize) + 1 ≤ L.length := by
              have hSl := hSlenm
              rw [hSe] at hSl
              simp only [List.length_cons] at hSl
              omega
            rw [hd1, List.drop_append_of_le_length hd2, List.map_append]
            have hStl : Stl = (L.drop ((L.length - opts.maxSize) + 1)).map
                (fun q => (defaultKeyGenerator q.1, mkNewEntry q)) := by
              have htl : S.tail = ((L.drop (L.length - opts.maxSize)).map
                  (fun q => (defaultKeyGenerator q.1, mkNewEntry q))).tail := by
                rw [hS]
              rw [hSe] at htl
              simp only [List.tail_cons] at htl
              rw [htl, ← List.map_tail, List.tail_drop]
            rw [hStl]
            rfl

/-! Claim C4. -/

/-- C4: after any `addError` the store holds at most `maxSize` entries (last
conjunct, for any start state within capacity); and inserting
`maxSize + k` pairwise-distinct signals (distinct keys, pairwise similarity
below the threshold, strictly increasing insertion instants within the ttl)
into an empty store leaves exactly the `maxSize` most recent entries: the `k`
evicted ones are exactly the `k` with the oldest `firstSeen` timestamps. -/
theorem C4_capacity_eviction (opts : ErrorCacheOptions) (k : Nat)
    (items : List (AppError × Int)) (httl : 0 ≤ opts.ttl)
    (hkeys : (items.map (fun p => defaultKeyGenerator p.1)).Nodup)
    (hsim : items.Pairwise (fun p q => calculateSimilarity q.1 p.1 < opts.similarityThreshold))
    (htimes : items.Pairwise (fun p q => p.2 < q.2 ∧ q.2 - p.2 ≤ opts.ttl))
    (hlen : items.length = opts.maxSize + k) :
    insertList opts items =
      (items.drop k).map (fun p => (defaultKeyGenerator p.1, mkNewEntry p)) ∧
    (insertList opts items).length = opts.maxSize ∧
    (∀ (cache : CacheMap) (e : AppError) (now : Int),
      cache.length ≤ opts.maxSize →
      (addError opts cache e now).cache.length ≤ opts.maxSize) := by
  have h1 := insertList_eq opts httl items hkeys hsim htimes
  have hk : items.length - opts.maxSize = k := by omega
  rw [hk] at h1
  refine ⟨h1, ?_, fun cache e now h => addError_length_le opts cache e now h⟩
  rw [h1, List.length_map, List.length_drop]
  omega

/-- C4 witness: the spec's concrete scenario, maxSize 2 with distinct errors
A, B, C added in order: the store ends as exactly the entries of B and C,
with A evicted. -/
theorem C4_capacity_eviction_witness :
    insertList optsMax2 items3 =
      [(defaultKeyGenerator errB, mkNewEntry (errB, 1)),
       (defaultKeyGenerator errC, mkNewEntry (errC, 2))] ∧
    (insertList optsMax2 items3).length = 2 := by
  have h := C4_capacity_eviction optsMax2 1 items3 (by decide) (by decide)
    (by norm_num +decide [items3, optsMax2, List.pairwise_cons, calculateSimilarity,
      calculateStringSimilarity, calculateContextSimilarity, errA, errB, errC])
    (by decide) (by decide)
  exact ⟨h.1, h.2.1⟩

/-! Supporting invariant: counts in the store stay at least 1 under
`addError`, so the hypothesis of `C3_alert_cadence` holds in every reachable
state. -/

theorem mapUpdate_mem {cache : CacheMap} {k : String} {v : CachedError} :
    ∀ kv ∈ mapUpdate cache k v, kv ∈ cache ∨ kv.2 = v := by
  intro kv hkv
  simp only [mapUpdate, List.mem_map] at hkv
  obtain ⟨kw, hkw, hkveq⟩ := hkv
  by_cases hk : kw.1 = k
  · rw [if_pos hk] at hkveq
    right
    rw [← hkveq]
  · rw [if_neg hk] at hkveq
    left
    rw [← hkveq]
    exact hkw

theorem cleanup_subset {opts : ErrorCacheOptions} {c : CacheMap} {now : Int} :
    ∀ kv ∈ cleanup opts c now, kv ∈ c := by
  intro kv hkv
  simp only [cleanup] at hkv
  split_ifs at hkv with h
  · exact (List.mem_filter.mp (List.mem_filter.mp hkv).1).1
  · exact (List.mem_filter.mp hkv).1

theorem addError_countPos (opts : ErrorCacheOptions) (cache : CacheMap) (e : AppError)
    (now : Int) (h : ∀ kv ∈ cache, 1 ≤ kv.2.count) :
    ∀ kv ∈ (addError opts cache e now).cache, 1 ≤ kv.2.count := by
  intro kv hkv
  cases hget : mapGet cache (defaultKeyGenerator e) with
  | some existing =>
      simp only [addError, hget] at hkv
      rcases mapUpdate_mem kv hkv with hm | hm
      · exact h kv hm
      · rw [hm]
        exact Nat.le_add_left 1 existing.count
  | none =>
      cases hsim : findSimilarError opts cache e with
      | some similarError =>
          simp only [addError, hget, hsim] at hkv
          rcases mapUpdate_mem kv hkv with hm | hm
          · exact h kv hm
          · rw [hm]
            exact Nat.le_add_left 1 similarError.count
      | none =>
          simp only [addError, hget, hsim] at hkv
          have hkv2 := cleanup_subset kv hkv
          rcases List.mem_append.mp hkv2 with hm | hm
          · exact h kv hm
          · rw [List.mem_singleton] at hm
            subst hm
            exact le_refl 1
